import Mathlib

/-!
Verification of the Indicator & Signal-Decision Engine of the crypto
backtesting tool (src/strategies.py, src/backtest_runner.py).

Series are embedded as functions ℕ → ℚ (or ℕ → ℝ where the source uses
transcendental functions).  Pandas rolling windows that yield NaN during
warm-up are embedded as Option-valued queries.  IEEE division special
cases that the RSI computation relies on are embedded by the FVal type.
Stateful strategy `next` methods are embedded as explicit step functions
on state records, translated block by block from the source.
-/

namespace Crypto

/-- Trading action proposed by a strategy on one bar.  `enterLong`/`enterShort`
carry the protective stop-loss and take-profit levels passed to buy()/sell(). -/
inductive Action where
  | none : Action
  | enterLong (sl tp : ℚ) : Action
  | enterShort (sl tp : ℚ) : Action
  | closePos : Action
deriving DecidableEq, Repr

/-- Direction of the externally owned position, read by strategies. -/
inductive Dir where
  | flat : Dir
  | long : Dir
  | short : Dir
deriving DecidableEq, Repr

/-- Minimum of a list of rationals (python `min` over a nonempty slice;
on the empty list we return 0, a case the guarded call sites never hit). -/
def listMin : List ℚ → ℚ
  | [] => 0
  | a :: r => r.foldl min a

/-- Maximum of a list of rationals (python `max` over a nonempty slice). -/
def listMax : List ℚ → ℚ
  | [] => 0
  | a :: r => r.foldl max a

/-! ## Crossover detector

Embeds the two-series cross predicates used verbatim in
`LuciTechEMA.next` (src/strategies.py:434-437), `CatchingTheBottom.next`
(1474, 1484) and `CoralTrendPullback.next` (1789-1791):
`bull_cross = prev_a <= prev_b and cur_a > cur_b`. -/

/-- `crosses_above(a, b)` from the previous and current values of both series. -/
def crossesAbove (aPrev bPrev aCur bCur : ℚ) : Bool :=
  decide (aPrev ≤ bPrev) && decide (bCur < aCur)

/-- `crosses_below(a, b)` from the previous and current values of both series. -/
def crossesBelow (aPrev bPrev aCur bCur : ℚ) : Bool :=
  decide (bPrev ≤ aPrev) && decide (aCur < bCur)

/-! ## SMA (pandas `series.rolling(p).mean()`)

`rolling(p).mean()` is NaN (undefined) until `p` samples exist, i.e. at
indices `i < p - 1`; embedded as an Option-valued query. -/

/-- SMA query: the value of `x.rolling(p).mean()` at index `i`, `none`
during warm-up exactly as pandas yields NaN there. -/
def smaQuery (p : ℕ) (x : ℕ → ℚ) (i : ℕ) : Option ℚ :=
  if 1 ≤ p ∧ p ≤ i + 1 then some ((∑ k ∈ Finset.range p, x (i - k)) / p) else none

/-! ## ATR (SmaCrossATR.init.ATR, src/strategies.py:270-290; identically
LuciTechEMA.init.ATR, 400-410)

`tr = pd.concat([high-low, |high-prev_close|, |low-prev_close|]).max(axis=1)`.
At index 0 `close.shift(1)` is NaN, and DataFrame.max skips NaN, so
`tr[0] = high[0] - low[0]`; the true-range series is fully numeric and
`tr.rolling(p).mean()` is defined from index `p - 1` on. -/

/-- The true range at index `i`. -/
def trueRange (high low close : ℕ → ℚ) : ℕ → ℚ
  | 0 => high 0 - low 0
  | i + 1 =>
      max (high (i + 1) - low (i + 1))
        (max |high (i + 1) - close i| |low (i + 1) - close i|)

/-- ATR query: the value of `tr.rolling(p).mean()` at index `i`, `none`
during warm-up exactly as pandas yields NaN there. -/
def atrQuery (p : ℕ) (high low close : ℕ → ℚ) (i : ℕ) : Option ℚ :=
  if 1 ≤ p ∧ p ≤ i + 1 then
    some ((∑ k ∈ Finset.range p, trueRange high low close (i - k)) / p)
  else none

/-! ## RSI with IEEE float special values

`RsiOscillator.init.RSI` (src/strategies.py:162-180) computes
`rs = gain / loss` with numpy float semantics: positive/0 = +inf,
negative/0 = -inf, 0/0 = NaN; then `100 - (100 / (1 + rs))`.
The FVal type embeds exactly the special-value arithmetic these
expressions exercise. -/

/-- A float-like value: a finite rational, +infinity, -infinity or NaN. -/
inductive FVal where
  | num (q : ℚ) : FVal
  | pinf : FVal
  | minf : FVal
  | nan : FVal
deriving DecidableEq, Repr

/-- IEEE addition on FVal (the cases the RSI pipeline can produce). -/
def fadd : FVal → FVal → FVal
  | FVal.num a, FVal.num b => FVal.num (a + b)
  | FVal.num _, FVal.pinf => FVal.pinf
  | FVal.pinf, FVal.num _ => FVal.pinf
  | FVal.num _, FVal.minf => FVal.minf
  | FVal.minf, FVal.num _ => FVal.minf
  | FVal.pinf, FVal.pinf => FVal.pinf
  | FVal.minf, FVal.minf => FVal.minf
  | _, _ => FVal.nan

/-- IEEE negation on FVal. -/
def fneg : FVal → FVal
  | FVal.num a => FVal.num (-a)
  | FVal.pinf => FVal.minf
  | FVal.minf => FVal.pinf
  | FVal.nan => FVal.nan

/-- IEEE subtraction on FVal. -/
def fsub (a b : FVal) : FVal := fadd a (fneg b)

/-- IEEE division on FVal: finite/0 gives a signed infinity, 0/0 gives NaN,
finite/infinity gives 0. -/
def fdiv : FVal → FVal → FVal
  | FVal.num a, FVal.num b =>
      if b ≠ 0 then FVal.num (a / b)
      else if 0 < a then FVal.pinf
      else if a < 0 then FVal.minf
      else FVal.nan
  | FVal.num _, FVal.pinf => FVal.num 0
  | FVal.num _, FVal.minf => FVal.num 0
  | FVal.pinf, FVal.num b => if 0 ≤ b then FVal.pinf else FVal.minf
  | FVal.minf, FVal.num b => if 0 ≤ b then FVal.minf else FVal.pinf
  | _, _ => FVal.nan

/-- `series.diff()` at index `i ≥ 1`. -/
def priceDelta (x : ℕ → ℚ) (i : ℕ) : ℚ := x i - x (i - 1)

/-- `delta.where(delta > 0, 0)`: keep positive changes. -/
def gainPart (d : ℚ) : ℚ := if 0 < d then d else 0

/-- `-delta.where(delta < 0, 0)`: magnitude of negative changes. -/
def lossPart (d : ℚ) : ℚ := if d < 0 then -d else 0

/-- The masked gain series: `delta.where(delta > 0, 0)` maps the NaN diff
at index 0 to 0 as well (pandas treats `NaN > 0` as false). -/
def maskedGain (x : ℕ → ℚ) (j : ℕ) : ℚ :=
  if j = 0 then 0 else gainPart (priceDelta x j)

/-- The masked loss series, with the index-0 NaN diff mapped to 0. -/
def maskedLoss (x : ℕ → ℚ) (j : ℕ) : ℚ :=
  if j = 0 then 0 else lossPart (priceDelta x j)

/-- Trailing mean of positive deltas over `p` bars ending at `i`
(`gain` in RsiOscillator.init.RSI). -/
def rsiGain (p : ℕ) (x : ℕ → ℚ) (i : ℕ) : ℚ :=
  (∑ k ∈ Finset.range p, maskedGain x (i - k)) / p

/-- Trailing mean of negative-delta magnitudes over `p` bars ending at `i`
(`loss` in RsiOscillator.init.RSI). -/
def rsiLoss (p : ℕ) (x : ℕ → ℚ) (i : ℕ) : ℚ :=
  (∑ k ∈ Finset.range p, maskedLoss x (i - k)) / p

/-- The RSI value `100 - (100 / (1 + gain / loss))` at index `i`, NaN
(undefined) during warm-up: the masked delta series is fully numeric, so
the rolling mean of width `p` exists from index `p - 1` on. -/
def RSI (p : ℕ) (x : ℕ → ℚ) (i : ℕ) : FVal :=
  if 1 ≤ p ∧ p ≤ i + 1 then
    fsub (FVal.num 100)
      (fdiv (FVal.num 100)
        (fadd (FVal.num 1) (fdiv (FVal.num (rsiGain p x i)) (FVal.num (rsiLoss p x i)))))
  else FVal.nan

/-! ## Coral Trend (CoralTrendPullback.init.calc_coral_trend, src/strategies.py:1678-1715)

Six cascaded first-order low-pass stages with shared coefficient `c1`,
combined by a cubic polynomial in the damping constant `cd`.  All arrays
are zero-seeded (`np.zeros`) and the loop starts at index 1, so the
combined output `bfr` is the numeric value 0 at index 0. -/

/-- The six smoothing stages and the combined Coral Trend output at one index. -/
structure CoralVec where
  s1 : ℚ
  s2 : ℚ
  s3 : ℚ
  s4 : ℚ
  s5 : ℚ
  s6 : ℚ
  bfr : ℚ
deriving DecidableEq, Repr

/-- The Coral Trend recurrence: value of all stages at index `i`. -/
def coralStage (sm cd : ℚ) (x : ℕ → ℚ) : ℕ → CoralVec
  | 0 => ⟨0, 0, 0, 0, 0, 0, 0⟩
  | i + 1 =>
      let p := coralStage sm cd x i
      let di := (sm - 1) / 2 + 1
      let c1 := 2 / (di + 1)
      let c2 := 1 - c1
      let c3 := 3 * (cd * cd + cd * cd * cd)
      let c4 := -3 * (2 * cd * cd + cd + cd * cd * cd)
      let c5 := 3 * cd + 1 + cd * cd * cd + 3 * cd * cd
      let a1 := c1 * x (i + 1) + c2 * p.s1
      let a2 := c1 * a1 + c2 * p.s2
      let a3 := c1 * a2 + c2 * p.s3
      let a4 := c1 * a3 + c2 * p.s4
      let a5 := c1 * a4 + c2 * p.s5
      let a6 := c1 * a5 + c2 * p.s6
      ⟨a1, a2, a3, a4, a5, a6, -(cd * cd * cd) * a6 + c3 * a5 + c4 * a4 + c5 * a3⟩

/-- The Coral Trend indicator as registered by self.I: the `bfr` array.
Every index holds a numeric value (the recurrence is zero-seeded). -/
def coralQuery (sm cd : ℚ) (x : ℕ → ℚ) (i : ℕ) : Option ℚ :=
  some (coralStage sm cd x i).bfr

/-! ## CoralTrendPullback strategy (src/strategies.py:1617-1868)

`next` is embedded as a step function on an explicit state record,
translated block by block: the history-length guard, the
position/stop-loss branch, cross detection, the C2 trend-confirmation
block (1796-1803), the C3 pullback-start block (1806-1812), the C4
pullback-hold block (1815-1823), the C5 entry block (1826-1857) and the
final direction-flip reset (1860-1861). -/

/-- Parameters of CoralTrendPullback: risk:reward ratio and the
`local_hl_lookback` stop-loss window. -/
structure CoralCfg where
  riskReward : ℚ
  lookback : ℕ
deriving DecidableEq, Repr

/-- Mutable per-instance state set up in CoralTrendPullback.init
(1734-1739) plus the stop/target attributes created at first entry. -/
structure CoralState where
  prePullbackDone : Bool
  inPullback : Bool
  pullbackValid : Bool
  lastCrossBar : ℕ
  trendStart : ℤ
  stopLoss : Option ℚ
  takeProfit : Option ℚ
deriving DecidableEq, Repr

/-- The state a fresh CoralTrendPullback instance starts in (init, 1734-1739):
all flags cleared, recorded trend sign 0, no stop/target attributes yet. -/
def coralInit : CoralState :=
  ⟨false, false, false, 0, 0, Option.none, Option.none⟩

/-- `_reset_state` (1863-1868): clears the three phase flags and the
recorded trend sign; it does not touch stop_loss / take_profit. -/
def coralReset (s : CoralState) : CoralState :=
  { s with prePullbackDone := false, inPullback := false, pullbackValid := false,
           trendStart := 0 }

/-- The machine is in the Idle phase: nothing confirmed, no pullback. -/
def coralIdle (s : CoralState) : Prop :=
  s.prePullbackDone = false ∧ s.inPullback = false ∧ s.pullbackValid = false ∧
  s.trendStart = 0

/-- Per-bar inputs read by CoralTrendPullback.next: bar count, prices,
Coral Trend values and directions for the current and previous bar, and
the `local_hl_lookback` windows of lows and highs (current bar included). -/
structure CoralBar where
  histLen : ℕ
  close : ℚ
  prevClose : ℚ
  high : ℚ
  low : ℚ
  coral : ℚ
  prevCoral : ℚ
  dir : ℤ
  prevDir : ℤ
  lows : List ℚ
  highs : List ℚ
deriving DecidableEq, Repr

/-- C2 block (1796-1803): a full bar beyond the Coral line while the
trend is non-flat confirms the trend. -/
def coralConfirm (b : CoralBar) (s : CoralState) : CoralState :=
  if 0 < b.dir ∧ s.prePullbackDone = false then
    (if b.coral < b.low ∧ b.coral < b.high then
      { s with prePullbackDone := true, lastCrossBar := b.histLen }
     else s)
  else if b.dir < 0 ∧ s.prePullbackDone = false then
    (if b.low < b.coral ∧ b.high < b.coral then
      { s with prePullbackDone := true, lastCrossBar := b.histLen }
     else s)
  else s

/-- C3 block (1806-1812): price closing back across the line against the
confirmed trend starts the pullback and records the trend sign. -/
def coralPullStart (b : CoralBar) (s : CoralState) : CoralState :=
  if s.prePullbackDone = true ∧ s.inPullback = false then
    (if 0 < b.dir ∧ (b.prevCoral ≤ b.prevClose ∧ b.close < b.coral) then
      { s with inPullback := true, trendStart := b.dir }
     else if b.dir < 0 ∧ (b.prevClose ≤ b.prevCoral ∧ b.coral < b.close) then
      { s with inPullback := true, trendStart := b.dir }
     else s)
  else s

/-- C4 block (1815-1823): during a pullback, a trend flip relative to the
recorded sign resets the machine, otherwise the pullback becomes valid. -/
def coralPullCheck (b : CoralBar) (s : CoralState) : CoralState :=
  if s.inPullback = true then
    (if 0 < s.trendStart ∧ b.dir ≤ 0 then coralReset s
     else if s.trendStart < 0 ∧ 0 ≤ b.dir then coralReset s
     else { s with pullbackValid := true })
  else s

/-- Final reset (1860-1861): a direction flip relative to the previous
bar resets the machine when no entry fired on this bar. -/
def coralTail (b : CoralBar) (s : CoralState) : CoralState × Action :=
  if (0 < b.dir ∧ b.prevDir < 0) ∨ (b.dir < 0 ∧ 0 < b.prevDir) then
    (coralReset s, Action.none)
  else (s, Action.none)

/-- C5 block (1826-1857): with a valid pullback, a close back across the
line in the trend direction fires an entry with stop at the lookback-window
extreme and target at stop-distance times risk:reward, then resets;
a non-positive stop distance skips the entry and falls through to the
direction-flip reset. -/
def coralEntry (cfg : CoralCfg) (b : CoralBar) (s : CoralState) : CoralState × Action :=
  if s.pullbackValid = true then
    (if 0 < b.dir ∧ (b.prevClose ≤ b.prevCoral ∧ b.coral < b.close) then
      (if 0 < b.close - listMin b.lows then
         (coralReset
            { s with
                stopLoss := some (listMin b.lows),
                takeProfit :=
                  some (b.close + (b.close - listMin b.lows) * cfg.riskReward) },
          Action.enterLong (listMin b.lows)
            (b.close + (b.close - listMin b.lows) * cfg.riskReward))
       else coralTail b s)
     else if b.dir < 0 ∧ (b.prevCoral ≤ b.prevClose ∧ b.close < b.coral) then
      (if 0 < listMax b.highs - b.close then
         (coralReset
            { s with
                stopLoss := some (listMax b.highs),
                takeProfit :=
                  some (b.close - (listMax b.highs - b.close) * cfg.riskReward) },
          Action.enterShort (listMax b.highs)
            (b.close - (listMax b.highs - b.close) * cfg.riskReward))
       else coralTail b s)
     else coralTail b s)
  else coralTail b s

/-- The flat-position part of CoralTrendPullback.next: the four state
machine blocks run in source order on the shared mutable state. -/
def coralFlat (cfg : CoralCfg) (b : CoralBar) (s : CoralState) : CoralState × Action :=
  coralEntry cfg b (coralPullCheck b (coralPullStart b (coralConfirm b s)))

/-- One full call of CoralTrendPullback.next: the history guard (1747),
the in-position stop/target management (1763-1785), or the state machine. -/
def coralStep (cfg : CoralCfg) (pos : Dir) (b : CoralBar) (s : CoralState) :
    CoralState × Action :=
  if b.histLen < cfg.lookback + 5 then (s, Action.none)
  else
    match pos with
    | Dir.flat => coralFlat cfg b s
    | Dir.long =>
        match s.stopLoss, s.takeProfit with
        | some sl, some tp =>
            if b.low ≤ sl then (coralReset s, Action.closePos)
            else if tp ≤ b.high then (coralReset s, Action.closePos)
            else (s, Action.none)
        | _, _ => (s, Action.none)
    | Dir.short =>
        match s.stopLoss, s.takeProfit with
        | some sl, some tp =>
            if sl ≤ b.high then (coralReset s, Action.closePos)
            else if b.low ≤ tp then (coralReset s, Action.closePos)
            else (s, Action.none)
        | _, _ => (s, Action.none)

/-- Deterministic position evolution used to replay a bar sequence: the
execution engine opens / closes positions exactly as proposed. -/
def posAfter (p : Dir) : Action → Dir
  | Action.none => p
  | Action.enterLong _ _ => Dir.long
  | Action.enterShort _ _ => Dir.short
  | Action.closePos => Dir.flat

/-- Replay a bar sequence through a CoralTrendPullback instance,
collecting the per-bar actions. -/
def coralRun (cfg : CoralCfg) : Dir → CoralState → List CoralBar → List Action
  | _, _, [] => []
  | pos, s, b :: rest =>
      let r := coralStep cfg pos b s
      r.2 :: coralRun cfg (posAfter pos r.2) r.1 rest

/-- Position and machine state after replaying a bar sequence. -/
def coralReach (cfg : CoralCfg) : Dir → CoralState → List CoralBar → Dir × CoralState
  | pos, s, [] => (pos, s)
  | pos, s, b :: rest =>
      let r := coralStep cfg pos b s
      coralReach cfg (posAfter pos r.2) r.1 rest

/-! ## EMABandpassCombo strategy (src/strategies.py:563-747)

The decision layer of `next` (687-747): an EMA sign signal, a bandpass
zone signal holding its previous value in the neutral zone (the
per-instance `_prev_bp_signal`, re-initialized to 0 in init at 684-685),
agreement, optional inversion, and position switching. -/

/-- Parameters of the EMABandpassCombo decision layer. -/
structure BpcCfg where
  sellZone : ℚ
  buyZone : ℚ
  reverse : Bool
deriving DecidableEq, Repr

/-- Per-bar indicator values read by EMABandpassCombo.next. -/
structure BpcBar where
  emaFast : ℚ
  emaSlow : ℚ
  bpv : ℚ
deriving DecidableEq, Repr

/-- Effective per-bar action of EMABandpassCombo: `goLong`/`goShort`
stand for close-opposite-then-buy/sell, `closeAll` for position.close(). -/
inductive BpcAction where
  | hold : BpcAction
  | goLong : BpcAction
  | goShort : BpcAction
  | closeAll : BpcAction
deriving DecidableEq, Repr

/-- One call of EMABandpassCombo.next: returns the updated
`_prev_bp_signal` and the effective action. -/
def bpcStep (cfg : BpcCfg) (pos : Dir) (b : BpcBar) (prevSig : ℤ) : ℤ × BpcAction :=
  let sigEma : ℤ :=
    if b.emaSlow < b.emaFast then 1 else if b.emaFast < b.emaSlow then -1 else 0
  let sigBpf : ℤ :=
    if cfg.sellZone < b.bpv then 1 else if b.bpv < cfg.buyZone then -1 else prevSig
  let sig0 : ℤ := if sigEma = sigBpf ∧ sigEma ≠ 0 then sigEma else 0
  let sig : ℤ :=
    if cfg.reverse then (if sig0 = 1 then -1 else if sig0 = -1 then 1 else sig0)
    else sig0
  let act :=
    if sig = 1 then (if pos = Dir.long then BpcAction.hold else BpcAction.goLong)
    else if sig = -1 then (if pos = Dir.short then BpcAction.hold else BpcAction.goShort)
    else (if pos = Dir.flat then BpcAction.hold else BpcAction.closeAll)
  (sigBpf, act)

/-- Position evolution for the EMABandpassCombo effective actions. -/
def bpcPos (p : Dir) : BpcAction → Dir
  | BpcAction.hold => p
  | BpcAction.goLong => Dir.long
  | BpcAction.goShort => Dir.short
  | BpcAction.closeAll => Dir.flat

/-- Replay a bar sequence through an EMABandpassCombo instance. -/
def bpcRun (cfg : BpcCfg) : Dir → ℤ → List BpcBar → List BpcAction
  | _, _, [] => []
  | pos, prevSig, b :: rest =>
      let r := bpcStep cfg pos b prevSig
      r.2 :: bpcRun cfg (bpcPos pos r.2) r.1 rest

/-! ## LuciTech EMA breakout strategies (src/strategies.py:326-560)

`LuciTechEMA.next` (420-471, long only) and `LuciTechEMAShort.next`
(515-560, bidirectional), embedded as per-bar decision functions. -/

/-- Parameters shared by both LuciTech variants. -/
structure LuciCfg where
  atrMult : ℚ
  riskReward : ℚ
  useAtrSl : Bool
deriving DecidableEq, Repr

/-- Per-bar inputs of the LuciTech `next` methods.  `lowWin`/`highWin` are
the candle-stop windows `Low[-1], ..., Low[-lookback-1]` (head is the
current bar, so they are nonempty whenever data exists). -/
structure LuciBar where
  close : ℚ
  high : ℚ
  low : ℚ
  atr : ℚ
  ema : ℚ
  prevClose : ℚ
  prevEma : ℚ
  lowWin : List ℚ
  highWin : List ℚ
deriving DecidableEq, Repr

/-- One call of LuciTechEMA.next (the long-only variant, 420-471). -/
def luciLongStep (cfg : LuciCfg) (pos : Dir) (b : LuciBar) : Action :=
  let bull := b.prevClose ≤ b.prevEma ∧ b.ema < b.close
  let bear := b.prevEma ≤ b.prevClose ∧ b.close < b.ema
  if pos = Dir.flat then
    (if bull then
      (let sl := if cfg.useAtrSl then b.low - b.atr * cfg.atrMult else listMin b.lowWin
       let d := b.close - sl
       if 0 < d then Action.enterLong sl (b.close + d * cfg.riskReward)
       else Action.none)
     else Action.none)
  else if pos = Dir.long ∧ bear then Action.closePos
  else Action.none

/-- One call of LuciTechEMAShort.next (the bidirectional variant, 515-560). -/
def luciShortStep (cfg : LuciCfg) (pos : Dir) (b : LuciBar) : Action :=
  let bull := b.prevClose ≤ b.prevEma ∧ b.ema < b.close
  let bear := b.prevEma ≤ b.prevClose ∧ b.close < b.ema
  if pos = Dir.flat then
    (if bull then
      (let sl := if cfg.useAtrSl then b.low - b.atr * cfg.atrMult else listMin b.lowWin
       let d := b.close - sl
       if 0 < d then Action.enterLong sl (b.close + d * cfg.riskReward)
       else Action.none)
     else if bear then
      (let sl := if cfg.useAtrSl then b.high + b.atr * cfg.atrMult else listMax b.highWin
       let d := sl - b.close
       if 0 < d then
         (let tp := b.close - d * cfg.riskReward
          if 0 < tp ∧ 0 < sl then Action.enterShort sl tp else Action.none)
       else Action.none)
     else Action.none)
  else if pos = Dir.long ∧ bear then Action.closePos
  else if pos = Dir.short ∧ bull then Action.closePos
  else Action.none

/-! ## Bandpass filter (EMABandpassCombo.init.BandpassFilter, src/strategies.py:647-675)

Coefficients use numpy cos/sqrt in degrees-converted-to-radians form:
`beta = cos(pi * (360/len) / 180)`, `gamma = 1 / cos(pi * (720*delta/len) / 180)`,
`alpha = gamma - sqrt(gamma*gamma - 1)`; the output array is `np.zeros`
and the loop starts at 2, so bp[0] = bp[1] = 0. -/

/-- `beta` coefficient, exactly as the source writes it. -/
noncomputable def bpBeta (len : ℝ) : ℝ :=
  Real.cos (Real.pi * (360 / len) / 180)

/-- `gamma` coefficient, exactly as the source writes it. -/
noncomputable def bpGamma (len delta : ℝ) : ℝ :=
  1 / Real.cos (Real.pi * (720 * delta / len) / 180)

/-- `alpha` coefficient, exactly as the source writes it. -/
noncomputable def bpAlpha (len delta : ℝ) : ℝ :=
  bpGamma len delta - Real.sqrt (bpGamma len delta * bpGamma len delta - 1)

/-- The bandpass recurrence on an input series `x` (the source's hl2). -/
noncomputable def BandpassFilter (len delta : ℝ) (x : ℕ → ℝ) : ℕ → ℝ
  | 0 => 0
  | 1 => 0
  | i + 2 =>
      0.5 * (1 - bpAlpha len delta) * (x (i + 2) - x i) +
        bpBeta len * (1 + bpAlpha len delta) * BandpassFilter len delta x (i + 1) -
        bpAlpha len delta * BandpassFilter len delta x i

/-- The bandpass indicator as registered by self.I: every index holds a
numeric value (the output array is zero-seeded, never NaN at the seeds). -/
noncomputable def bpQuery (len delta : ℝ) (x : ℕ → ℝ) (i : ℕ) : Option ℝ :=
  some (BandpassFilter len delta x i)

/-! ## Ehlers cycle detector (EhlersCombo.init.calc_snr, src/strategies.py:1044-1121)

The Hilbert-transform pipeline.  All arrays are `np.zeros(n)` and the
loop runs from index 6, so indices below 6 hold the zero seed.  The
per-bar dominant-cycle period update is: take the raw arctan estimate
(or hold the previous period when Im or Re is 0), clamp relative to the
previous period (factors 1.5 and 0.67), clamp into [6, 100], then blend
0.2/0.8 with the previous stored period. -/

/-- Raw period estimate (1101-1104): `2*pi/arctan(Im/Re)` when both Im
and Re are nonzero, otherwise the previous period is held. -/
noncomputable def periodRaw (im re prev : ℝ) : ℝ :=
  if im ≠ 0 ∧ re ≠ 0 then 2 * Real.pi / Real.arctan (im / re) else prev

/-- The clamping step (1107-1111): relative clamp to [0.67*prev, 1.5*prev]
applied as two conditional overwrites, then `max(6, min(100, .))`. -/
noncomputable def periodClamped (raw prev : ℝ) : ℝ :=
  max 6 (min 100
    (if (if raw > 1.5 * prev then 1.5 * prev else raw) < 0.67 * prev then 0.67 * prev
     else (if raw > 1.5 * prev then 1.5 * prev else raw)))

/-- The stored period (1112): the clamped value blended 0.2/0.8 with the
previous stored period. -/
noncomputable def periodStore (raw prev : ℝ) : ℝ :=
  0.2 * periodClamped raw prev + 0.8 * prev

/-- All per-index values of the calc_snr pipeline. -/
structure EVec where
  rng : ℝ
  smooth : ℝ
  det : ℝ
  i1 : ℝ
  q1 : ℝ
  ji : ℝ
  jq : ℝ
  i2 : ℝ
  q2 : ℝ
  re : ℝ
  im : ℝ
  period : ℝ
  snr : ℝ
deriving Inhabited

/-- The `np.zeros` seed of every pipeline array. -/
def zeroE : EVec := ⟨0, 0, 0, 0, 0, 0, 0, 0, 0, 0, 0, 0, 0⟩

/-- One iteration of the calc_snr loop at index `i`, reading earlier
indices from `hist` (newest first; out-of-range reads return the zero
seed, matching `np.zeros`). -/
noncomputable def ehlersStep (p h l : ℕ → ℝ) (i : ℕ) (hist : List EVec) : EVec :=
  if i < 6 then zeroE
  else
    let e1 := hist.getD 0 zeroE
    let e2 := hist.getD 1 zeroE
    let e3 := hist.getD 2 zeroE
    let e4 := hist.getD 3 zeroE
    let e6 := hist.getD 5 zeroE
    let rng := 0.1 * (h i - l i) + 0.9 * e1.rng
    let smooth := (4 * p i + 3 * p (i - 1) + 2 * p (i - 2) + p (i - 3)) / 10
    let kk := 0.075 * e1.period + 0.54
    let det := (0.0962 * smooth + 0.5769 * e2.smooth - 0.5769 * e4.smooth -
      0.0962 * e6.smooth) * kk
    let q1 := (0.0962 * det + 0.5769 * e2.det - 0.5769 * e4.det -
      0.0962 * e6.det) * kk
    let i1 := e3.det
    let ji := (0.0962 * i1 + 0.5769 * e2.i1 - 0.5769 * e4.i1 -
      0.0962 * e6.i1) * kk
    let jq := (0.0962 * q1 + 0.5769 * e2.q1 - 0.5769 * e4.q1 -
      0.0962 * e6.q1) * kk
    let i2 := 0.2 * (i1 - jq) + 0.8 * e1.i2
    let q2 := 0.2 * (q1 + ji) + 0.8 * e1.q2
    let re := 0.2 * (i2 * e1.i2 + q2 * e1.q2) + 0.8 * e1.re
    let im := 0.2 * (i2 * e1.q2 - q2 * e1.i2) + 0.8 * e1.im
    let period := periodStore (periodRaw im re e1.period) e1.period
    let snr :=
      if rng ≠ 0 then
        (if 0 < rng * rng then
          0.25 * (10 * Real.logb 10 ((i1 * i1 + q1 * q1) / (rng * rng) + 1e-10) + 6) +
            0.75 * e1.snr
         else 0)
      else 0
    ⟨rng, smooth, det, i1, q1, ji, jq, i2, q2, re, im, period, snr⟩

/-- The pipeline history up to index `i`, newest first. -/
noncomputable def ehlersHist (p h l : ℕ → ℝ) : ℕ → List EVec
  | 0 => [ehlersStep p h l 0 []]
  | i + 1 => ehlersStep p h l (i + 1) (ehlersHist p h l i) :: ehlersHist p h l i

/-- The calc_snr pipeline values at index `i`. -/
noncomputable def calcSnr (p h l : ℕ → ℝ) (i : ℕ) : EVec :=
  (ehlersHist p h l i).headI

/-! ## Theorems -/

/-- C5: the cross-above predicate at an index where both series are defined
at it and its predecessor holds iff `a[i] > b[i]` and `a[i-1] <= b[i-1]`
(mirror for cross-below); equality at the prior bar still permits the cross,
equality at the current bar yields no signal. -/
theorem claim5_cross_semantics (aPrev bPrev aCur bCur : ℚ) :
    (crossesAbove aPrev bPrev aCur bCur = true ↔ bCur < aCur ∧ aPrev ≤ bPrev) ∧
    (crossesBelow aPrev bPrev aCur bCur = true ↔ aCur < bCur ∧ bPrev ≤ aPrev) ∧
    (aPrev = bPrev → (crossesAbove aPrev bPrev aCur bCur = true ↔ bCur < aCur)) ∧
    (aCur = bCur → crossesAbove aPrev bPrev aCur bCur = false ∧
      crossesBelow aPrev bPrev aCur bCur = false) := by
  refine ⟨?_, ?_, ?_, ?_⟩
  · simp only [crossesAbove, Bool.and_eq_true, decide_eq_true_eq]
    exact ⟨fun h => ⟨h.2, h.1⟩, fun h => ⟨h.2, h.1⟩⟩
  · simp only [crossesBelow, Bool.and_eq_true, decide_eq_true_eq]
    exact ⟨fun h => ⟨h.2, h.1⟩, fun h => ⟨h.2, h.1⟩⟩
  · intro he
    simp [crossesAbove, he]
  · intro he
    constructor
    · simp [crossesAbove, he]
    · simp [crossesBelow, he]

/-- Witness for C5 at concrete inputs: prior-bar equality lets the cross
fire, current-bar equality yields no signal. -/
theorem claim5_witness :
    crossesAbove 5 5 3 2 = true ∧ crossesAbove 1 1 4 4 = false ∧
    crossesBelow 1 1 4 4 = false :=
  ⟨((claim5_cross_semantics 5 5 3 2).2.2.1 rfl).mpr (by norm_num),
   ((claim5_cross_semantics 1 1 4 4).2.2.2 rfl).1,
   ((claim5_cross_semantics 1 1 4 4).2.2.2 rfl).2⟩

/-- C8: cross-above and cross-below are mutually exclusive at every index,
and exactly one of no-cross, cross-above, cross-below holds. -/
theorem claim8_cross_exclusive (aPrev bPrev aCur bCur : ℚ) :
    (crossesAbove aPrev bPrev aCur bCur && crossesBelow aPrev bPrev aCur bCur) = false ∧
    ((crossesAbove aPrev bPrev aCur bCur = true ∧
        crossesBelow aPrev bPrev aCur bCur = false) ∨
     (crossesAbove aPrev bPrev aCur bCur = false ∧
        crossesBelow aPrev bPrev aCur bCur = true) ∨
     (crossesAbove aPrev bPrev aCur bCur = false ∧
        crossesBelow aPrev bPrev aCur bCur = false)) := by
  have key : ¬(crossesAbove aPrev bPrev aCur bCur = true ∧
      crossesBelow aPrev bPrev aCur bCur = true) := by
    simp only [crossesAbove, crossesBelow, Bool.and_eq_true, decide_eq_true_eq]
    rintro ⟨⟨-, h1⟩, -, h2⟩
    exact absurd h1 (lt_asymm h2)
  cases hA : crossesAbove aPrev bPrev aCur bCur <;>
    cases hB : crossesBelow aPrev bPrev aCur bCur <;> simp_all

/-- C3: where the RSI value is defined (a finite number) and the trailing
average loss is zero, the RSI equals 100 — the division special values
stay local and never surface. -/
theorem claim3_rsi_zero_loss (p : ℕ) (x : ℕ → ℚ) (i : ℕ)
    (hdef : ∃ q, RSI p x i = FVal.num q) (hloss : rsiLoss p x i = 0) :
    RSI p x i = FVal.num 100 := by
  by_cases hg : 1 ≤ p ∧ p ≤ i + 1
  · unfold RSI at hdef ⊢
    rw [if_pos hg] at hdef ⊢
    rw [hloss] at hdef ⊢
    rcases lt_trichotomy (rsiGain p x i) 0 with hs | hs | hs
    · simp [fdiv, fadd, fsub, fneg, hs, asymm hs]
    · rw [hs] at hdef
      simp [fdiv, fadd, fsub, fneg] at hdef
    · simp [fdiv, fadd, fsub, fneg, hs, asymm hs]
  · unfold RSI at hdef
    rw [if_neg hg] at hdef
    rcases hdef with ⟨q, hq⟩
    exact absurd hq (by simp)

/-- Witness for C3: on the strictly increasing series `i`, RSI(2) at
index 2 is defined, has zero average loss, and equals 100. -/
theorem claim3_witness :
    rsiLoss 2 (fun i => (i : ℚ)) 2 = 0 ∧
    RSI 2 (fun i => (i : ℚ)) 2 = FVal.num 100 := by
  have hl : rsiLoss 2 (fun i => (i : ℚ)) 2 = 0 := by
    norm_num [rsiLoss, Finset.sum_range_succ, maskedLoss, priceDelta, lossPart]
  have hg : rsiGain 2 (fun i => (i : ℚ)) 2 = 1 := by
    norm_num [rsiGain, Finset.sum_range_succ, maskedGain, priceDelta, gainPart]
  have hval : RSI 2 (fun i => (i : ℚ)) 2 = FVal.num 100 := by
    unfold RSI
    rw [if_pos (by norm_num), hg, hl]
    norm_num [fdiv, fadd, fsub, fneg]
  exact ⟨hl, claim3_rsi_zero_loss 2 (fun i => (i : ℚ)) 2 ⟨100, hval⟩ hl⟩

/-- C1 fails on the code: the zero-seeded recurrences report the numeric
value 0 — not "undefined" — during warm-up.  The bandpass filter output at
index 0 is the number 0, and so is the Coral Trend output at index 0. -/
theorem claim1_counterexample :
    bpQuery 20 0.5 (fun _ => (1 : ℝ)) 0 = some 0 ∧
    bpQuery 20 0.5 (fun _ => (1 : ℝ)) 0 ≠ Option.none ∧
    coralQuery 25 (2 / 5) (fun _ => (1 : ℚ)) 0 = some 0 :=
  ⟨rfl, by simp [bpQuery], rfl⟩

/-- C1 amended: the rolling-window indicators — SMA, RSI and ATR —
report "undefined" before their warm-up, but the zero-seeded recurrences
(bandpass filter at indices < 2, Coral Trend at index 0) report the
numeric seed value 0 there instead of "undefined". -/
theorem claim1_warmup (p : ℕ) (x : ℕ → ℚ) (i : ℕ) :
    (i + 1 < p → smaQuery p x i = Option.none) ∧
    (i + 1 < p → RSI p x i = FVal.nan) ∧
    (∀ high low : ℕ → ℚ, i + 1 < p → atrQuery p high low x i = Option.none) ∧
    (∀ (len delta : ℝ) (y : ℕ → ℝ),
      bpQuery len delta y 0 = some 0 ∧ bpQuery len delta y 1 = some 0) ∧
    (∀ (sm cd : ℚ) (z : ℕ → ℚ), coralQuery sm cd z 0 = some 0) := by
  refine ⟨fun hw => ?_, fun hw => ?_, fun high low hw => ?_,
    fun len delta y => ⟨rfl, rfl⟩, fun sm cd z => rfl⟩
  · unfold smaQuery
    rw [if_neg]
    rintro ⟨-, hp⟩
    omega
  · unfold RSI
    rw [if_neg]
    rintro ⟨-, hp⟩
    omega
  · unfold atrQuery
    rw [if_neg]
    rintro ⟨-, hp⟩
    omega

/-- Witness for C1 (amended): SMA(3), RSI(3) and ATR(3) are undefined at
index 0 while the seeded recurrences report 0 there. -/
theorem claim1_witness :
    smaQuery 3 (fun _ => (1 : ℚ)) 0 = Option.none ∧
    RSI 3 (fun _ => (1 : ℚ)) 0 = FVal.nan ∧
    atrQuery 3 (fun _ => (2 : ℚ)) (fun _ => (1 : ℚ)) (fun _ => (1 : ℚ)) 0 =
      Option.none ∧
    bpQuery 20 0.5 (fun _ => (2 : ℝ)) 1 = some 0 ∧
    coralQuery 25 (2 / 5) (fun _ => (2 : ℚ)) 0 = some 0 :=
  ⟨(claim1_warmup 3 (fun _ => (1 : ℚ)) 0).1 (by norm_num),
   (claim1_warmup 3 (fun _ => (1 : ℚ)) 0).2.1 (by norm_num),
   (claim1_warmup 3 (fun _ => (1 : ℚ)) 0).2.2.1 (fun _ => (2 : ℚ)) (fun _ => (1 : ℚ))
     (by norm_num),
   ((claim1_warmup 3 (fun _ => (1 : ℚ)) 0).2.2.2.1 20 0.5 (fun _ => (2 : ℝ))).2,
   (claim1_warmup 3 (fun _ => (1 : ℚ)) 0).2.2.2.2 25 (2 / 5) (fun _ => (2 : ℚ))⟩

/-- C7: the bandpass filter computes beta = cos(2π/len),
gamma = 1/cos(4π·delta/len), alpha = gamma − sqrt(gamma²−1), and satisfies
the two-pole recurrence with zero seeds at indices 0 and 1. -/
theorem claim7_bandpass (len delta : ℝ) (x : ℕ → ℝ) :
    bpBeta len = Real.cos (2 * Real.pi / len) ∧
    bpGamma len delta = 1 / Real.cos (4 * Real.pi * delta / len) ∧
    bpAlpha len delta = bpGamma len delta - Real.sqrt ((bpGamma len delta) ^ 2 - 1) ∧
    BandpassFilter len delta x 0 = 0 ∧
    BandpassFilter len delta x 1 = 0 ∧
    (∀ i, BandpassFilter len delta x (i + 2) =
      0.5 * (1 - bpAlpha len delta) * (x (i + 2) - x i) +
        bpBeta len * (1 + bpAlpha len delta) * BandpassFilter len delta x (i + 1) -
        bpAlpha len delta * BandpassFilter len delta x i) := by
  refine ⟨?_, ?_, ?_, rfl, rfl, fun i => rfl⟩
  · unfold bpBeta
    congr 1
    ring
  · unfold bpGamma
    congr 2
    ring
  · unfold bpAlpha
    rw [sq]

/-- C9: replaying a bar sequence through two freshly constructed strategy
instances (CoralTrendPullback and EMABandpassCombo) with the same
parameters yields identical action sequences; the per-instance mutable
state starts at the constructor values (Idle machine, bandpass hold 0). -/
theorem claim9_determinism (cfg : CoralCfg) (bars : List CoralBar)
    (s t : CoralState) (cfg2 : BpcCfg) (bars2 : List BpcBar) (g0 g1 : ℤ)
    (hs : s = coralInit) (ht : t = coralInit) (h0 : g0 = 0) (h1 : g1 = 0) :
    coralRun cfg Dir.flat s bars = coralRun cfg Dir.flat t bars ∧
    bpcRun cfg2 Dir.flat g0 bars2 = bpcRun cfg2 Dir.flat g1 bars2 ∧
    coralIdle coralInit := by
  subst hs ht h0 h1
  exact ⟨rfl, rfl, rfl, rfl, rfl, rfl⟩

/-- `_reset_state` always leaves the machine in the Idle phase. -/
theorem coralReset_idle (s : CoralState) : coralIdle (coralReset s) :=
  ⟨rfl, rfl, rfl, rfl⟩

/-- With the history guard passed, `next` on a flat position runs the
state machine blocks. -/
theorem coralStep_flat (cfg : CoralCfg) (b : CoralBar) (s : CoralState)
    (h : ¬b.histLen < cfg.lookback + 5) :
    coralStep cfg Dir.flat b s = coralFlat cfg b s := by
  unfold coralStep
  rw [if_neg h]

/-- The C2 block only touches `prePullbackDone` and `lastCrossBar`. -/
theorem coralConfirm_fields (b : CoralBar) (s : CoralState) :
    (coralConfirm b s).inPullback = s.inPullback ∧
    (coralConfirm b s).pullbackValid = s.pullbackValid ∧
    (coralConfirm b s).trendStart = s.trendStart := by
  unfold coralConfirm
  split_ifs <;> exact ⟨rfl, rfl, rfl⟩

/-- On a bar whose close is above the Coral line in an up-trend, the C3
block cannot start a pullback, so the state passes through unchanged. -/
theorem coralPullStart_up (b : CoralBar) (s : CoralState)
    (hd : 0 < b.dir) (hc : b.coral < b.close) :
    coralPullStart b s = s := by
  unfold coralPullStart
  split_ifs with h1 h2 h3
  · exact absurd h2.2.2 (asymm hc)
  · exact absurd h3.1 (asymm hd)
  · rfl
  · rfl

/-- Mirror of `coralPullStart_up` for a down-trend bar closing below the line. -/
theorem coralPullStart_down (b : CoralBar) (s : CoralState)
    (hd : b.dir < 0) (hc : b.close < b.coral) :
    coralPullStart b s = s := by
  unfold coralPullStart
  split_ifs with h1 h2 h3
  · exact absurd h2.1 (asymm hd)
  · exact absurd h3.2.2 (asymm hc)
  · rfl
  · rfl

/-- The C4 block keeps the pullback valid when the current direction still
matches the recorded trend sign. -/
theorem coralPullCheck_keeps (b : CoralBar) (s : CoralState)
    (hv : s.pullbackValid = true)
    (hm : (0 < s.trendStart ∧ 0 < b.dir) ∨ (s.trendStart < 0 ∧ b.dir < 0)) :
    (coralPullCheck b s).pullbackValid = true := by
  unfold coralPullCheck
  rcases hm with ⟨hs, hd⟩ | ⟨hs, hd⟩ <;> split_ifs with h1 h2 h3
  · exact absurd hd (not_lt.mpr h2.2)
  · exact absurd hs (asymm h3.1)
  · rfl
  · exact hv
  · exact absurd hs (asymm h2.1)
  · exact absurd hd (not_lt.mpr h3.2)
  · rfl
  · exact hv

/-- The C5 block fires the long entry when the pullback is valid, the
trend is up and price closes back across the line with positive stop
distance. -/
theorem coralEntry_long (cfg : CoralCfg) (b : CoralBar) (s : CoralState)
    (hv : s.pullbackValid = true) (hd : 0 < b.dir)
    (hpc : b.prevClose ≤ b.prevCoral) (hc : b.coral < b.close)
    (hdist : 0 < b.close - listMin b.lows) :
    (coralEntry cfg b s).2 =
      Action.enterLong (listMin b.lows)
        (b.close + (b.close - listMin b.lows) * cfg.riskReward) ∧
    coralIdle (coralEntry cfg b s).1 := by
  unfold coralEntry
  rw [if_pos hv, if_pos ⟨hd, hpc, hc⟩, if_pos hdist]
  exact ⟨rfl, coralReset_idle _⟩

/-- Mirror of `coralEntry_long` for the short entry. -/
theorem coralEntry_short (cfg : CoralCfg) (b : CoralBar) (s : CoralState)
    (hv : s.pullbackValid = true) (hd : b.dir < 0)
    (hpc : b.prevCoral ≤ b.prevClose) (hc : b.close < b.coral)
    (hdist : 0 < listMax b.highs - b.close) :
    (coralEntry cfg b s).2 =
      Action.enterShort (listMax b.highs)
        (b.close - (listMax b.highs - b.close) * cfg.riskReward) ∧
    coralIdle (coralEntry cfg b s).1 := by
  unfold coralEntry
  rw [if_pos hv, if_neg (fun hcon => absurd hcon.1 (asymm hd)),
    if_pos ⟨hd, hpc, hc⟩, if_pos hdist]
  exact ⟨rfl, coralReset_idle _⟩

/-- Every branch of the C5 block ends Idle on a direction-flip bar. -/
theorem coralEntry_flip_idle (cfg : CoralCfg) (b : CoralBar) (s : CoralState)
    (hflip : (0 < b.dir ∧ b.prevDir < 0) ∨ (b.dir < 0 ∧ 0 < b.prevDir)) :
    coralIdle (coralEntry cfg b s).1 := by
  have htail : ∀ u : CoralState, coralIdle (coralTail b u).1 := by
    intro u
    unfold coralTail
    rw [if_pos hflip]
    exact coralReset_idle u
  unfold coralEntry
  split_ifs <;> first
    | exact coralReset_idle _
    | exact htail _

/-- On a non-flat position, CoralTrendPullback.next only holds or closes. -/
theorem coralStep_pos_actions (cfg : CoralCfg) (b : CoralBar) (s : CoralState)
    (pos : Dir) (hp : pos ≠ Dir.flat) :
    (coralStep cfg pos b s).2 = Action.none ∨
    (coralStep cfg pos b s).2 = Action.closePos := by
  unfold coralStep
  split_ifs
  · exact Or.inl rfl
  · cases pos with
    | flat => exact absurd rfl hp
    | long =>
        cases hsl : s.stopLoss <;> cases htp : s.takeProfit <;>
          first
            | exact Or.inl rfl
            | (dsimp only
               split_ifs <;> simp)
    | short =>
        cases hsl : s.stopLoss <;> cases htp : s.takeProfit <;>
          first
            | exact Or.inl rfl
            | (dsimp only
               split_ifs <;> simp)

/-- On a non-flat position, `next` leaves the machine state alone or resets it. -/
theorem coralStep_pos_state (cfg : CoralCfg) (b : CoralBar) (s : CoralState)
    (pos : Dir) (hp : pos ≠ Dir.flat) :
    (coralStep cfg pos b s).1 = s ∨ (coralStep cfg pos b s).1 = coralReset s := by
  unfold coralStep
  split_ifs
  · exact Or.inl rfl
  · cases pos with
    | flat => exact absurd rfl hp
    | long =>
        cases hsl : s.stopLoss <;> cases htp : s.takeProfit <;>
          first
            | exact Or.inl rfl
            | (dsimp only
               split_ifs <;> simp)
    | short =>
        cases hsl : s.stopLoss <;> cases htp : s.takeProfit <;>
          first
            | exact Or.inl rfl
            | (dsimp only
               split_ifs <;> simp)

/-- A flat-position bar that emits anything at all leaves the machine Idle. -/
theorem coralFlat_acting_idle (cfg : CoralCfg) (b : CoralBar) (s : CoralState)
    (hne : (coralFlat cfg b s).2 ≠ Action.none) :
    coralIdle (coralFlat cfg b s).1 := by
  unfold coralFlat coralEntry coralTail at hne ⊢
  split_ifs at hne ⊢ <;> first
    | exact coralReset_idle _
    | exact absurd rfl hne

/-- Reachability invariant: replaying any bar sequence from a fresh
instance, the machine is Idle whenever a position is open (entries reset
the machine before the position opens, and it is not touched while the
position lives). -/
theorem coralReach_positioned_idle (cfg : CoralCfg) (bars : List CoralBar) :
    ∀ (pos : Dir) (s : CoralState), (pos ≠ Dir.flat → coralIdle s) →
      (coralReach cfg pos s bars).1 ≠ Dir.flat →
      coralIdle (coralReach cfg pos s bars).2 := by
  induction bars with
  | nil => exact fun pos s hP => hP
  | cons b rest ih =>
      intro pos s hP
      show (coralReach cfg (posAfter pos (coralStep cfg pos b s).2)
          (coralStep cfg pos b s).1 rest).1 ≠ Dir.flat →
        coralIdle (coralReach cfg (posAfter pos (coralStep cfg pos b s).2)
          (coralStep cfg pos b s).1 rest).2
      apply ih
      intro hpos
      rcases hact : (coralStep cfg pos b s).2 with _ | ⟨sl, tp⟩ | ⟨sl, tp⟩ | _
      · rw [hact] at hpos
        have hpf : pos ≠ Dir.flat := hpos
        rcases coralStep_pos_state cfg b s pos hpf with hs | hs <;> rw [hs]
        · exact hP hpf
        · exact coralReset_idle s
      · by_cases hpf : pos = Dir.flat
        · subst hpf
          by_cases hl : b.histLen < cfg.lookback + 5
          · unfold coralStep at hact
            rw [if_pos hl] at hact
            simp at hact
          · rw [coralStep_flat cfg b s hl] at hact ⊢
            exact coralFlat_acting_idle cfg b s (by rw [hact]; simp)
        · rcases coralStep_pos_actions cfg b s pos hpf with hc | hc <;>
            rw [hc] at hact <;> simp at hact
      · by_cases hpf : pos = Dir.flat
        · subst hpf
          by_cases hl : b.histLen < cfg.lookback + 5
          · unfold coralStep at hact
            rw [if_pos hl] at hact
            simp at hact
          · rw [coralStep_flat cfg b s hl] at hact ⊢
            exact coralFlat_acting_idle cfg b s (by rw [hact]; simp)
        · rcases coralStep_pos_actions cfg b s pos hpf with hc | hc <;>
            rw [hc] at hact <;> simp at hact
      · rw [hact] at hpos
        exact absurd rfl hpos

/-- C2: on any bar where the Coral Trend direction is the reverse of the
previous bar's direction, the pullback machine ends the bar in Idle,
whatever phase it was in; and on the bars where the machine block does
not run because a position is open, the machine is Idle already (so the
reset-on-flip discipline holds on every bar of a replayed sequence). -/
theorem claim2_flip_resets (cfg : CoralCfg) (b : CoralBar) (s : CoralState)
    (hlen : cfg.lookback + 5 ≤ b.histLen)
    (hflip : (0 < b.dir ∧ b.prevDir < 0) ∨ (b.dir < 0 ∧ 0 < b.prevDir)) :
    coralIdle (coralStep cfg Dir.flat b s).1 ∧
    (∀ bars : List CoralBar,
      (coralReach cfg Dir.flat coralInit bars).1 ≠ Dir.flat →
      coralIdle (coralReach cfg Dir.flat coralInit bars).2) := by
  refine ⟨?_, fun bars =>
    coralReach_positioned_idle cfg bars Dir.flat coralInit (fun hc => absurd rfl hc)⟩
  rw [coralStep_flat cfg b s (not_lt.mpr hlen)]
  unfold coralFlat
  exact coralEntry_flip_idle cfg b _ hflip

/-- Witness for C2: the machine sits mid-pullback when the trend flips
from bearish to bullish; after the bar it is Idle. -/
theorem claim2_witness :
    coralIdle ((coralStep ⟨3 / 2, 5⟩ Dir.flat
      ⟨20, 10, 9, 11, 9, 8, 8, 1, -1, [9, 9, 9, 9, 9], [11, 11, 11, 11, 11]⟩
      ⟨true, true, false, 0, -1, Option.none, Option.none⟩).1) :=
  (claim2_flip_resets ⟨3 / 2, 5⟩
    ⟨20, 10, 9, 11, 9, 8, 8, 1, -1, [9, 9, 9, 9, 9], [11, 11, 11, 11, 11]⟩
    ⟨true, true, false, 0, -1, Option.none, Option.none⟩
    (by norm_num) (Or.inl ⟨by norm_num, by norm_num⟩)).1

/-- C4 fails on the code as stated: with the machine in PullbackValid and
price closing back across the line in the trend direction, no entry fires
when the stop distance is zero (close equal to the lookback-window low);
the code silently skips the bar instead of emitting an entry. -/
theorem claim4_counterexample :
    ((⟨true, true, true, 0, 1, Option.none, Option.none⟩ : CoralState).pullbackValid
        = true) ∧
    (0 : ℤ) < 1 ∧ (4 : ℚ) ≤ 4 ∧ (4 : ℚ) < 5 ∧
    listMin [5, 5, 5, 5, 5] = (5 : ℚ) ∧
    (coralStep ⟨2, 5⟩ Dir.flat
      ⟨20, 5, 4, 6, 5, 4, 4, 1, 1, [5, 5, 5, 5, 5], [6, 6, 6, 6, 6]⟩
      ⟨true, true, true, 0, 1, Option.none, Option.none⟩).2 = Action.none := by
  refine ⟨rfl, by norm_num, by norm_num, by norm_num, ?_, ?_⟩
  · norm_num [listMin, List.foldl, min_def]
  · norm_num [coralStep, coralFlat, coralConfirm, coralPullStart, coralPullCheck,
      coralEntry, coralTail, coralReset, listMin, List.foldl, min_def]

/-- C4 amended: the entry fires exactly as claimed — stop at the
lookback-window extreme, target at stop-distance times risk:reward from
the entry close, machine reset to Idle — provided the stop distance is
strictly positive; a non-positive stop distance skips the entry. -/
theorem claim4_pullback_entry (cfg : CoralCfg) (b : CoralBar) (s : CoralState)
    (hlen : cfg.lookback + 5 ≤ b.histLen) :
    (s.pullbackValid = true → 0 < s.trendStart → 0 < b.dir →
      b.prevClose ≤ b.prevCoral → b.coral < b.close →
      0 < b.close - listMin b.lows →
      (coralStep cfg Dir.flat b s).2 =
        Action.enterLong (listMin b.lows)
          (b.close + (b.close - listMin b.lows) * cfg.riskReward) ∧
      coralIdle (coralStep cfg Dir.flat b s).1) ∧
    (s.pullbackValid = true → s.trendStart < 0 → b.dir < 0 →
      b.prevCoral ≤ b.prevClose → b.close < b.coral →
      0 < listMax b.highs - b.close →
      (coralStep cfg Dir.flat b s).2 =
        Action.enterShort (listMax b.highs)
          (b.close - (listMax b.highs - b.close) * cfg.riskReward) ∧
      coralIdle (coralStep cfg Dir.flat b s).1) := by
  rw [coralStep_flat cfg b s (not_lt.mpr hlen)]
  unfold coralFlat
  constructor
  · intro hv hst hd hpc hc hdist
    rw [coralPullStart_up b (coralConfirm b s) hd hc]
    have hf := coralConfirm_fields b s
    exact coralEntry_long cfg b _
      (coralPullCheck_keeps b _ (hf.2.1.trans hv)
        (Or.inl ⟨hf.2.2 ▸ hst, hd⟩)) hd hpc hc hdist
  · intro hv hst hd hpc hc hdist
    rw [coralPullStart_down b (coralConfirm b s) hd hc]
    have hf := coralConfirm_fields b s
    exact coralEntry_short cfg b _
      (coralPullCheck_keeps b _ (hf.2.1.trans hv)
        (Or.inr ⟨hf.2.2 ▸ hst, hd⟩)) hd hpc hc hdist

/-- Witness for C4 (amended) at a concrete firing bar: stop 7, target 16. -/
theorem claim4_witness :
    (coralStep ⟨2, 5⟩ Dir.flat
      ⟨20, 10, 4, 11, 9, 9, 5, 1, 1, [9, 8, 7, 8, 9], [11, 11, 11, 11, 11]⟩
      ⟨true, true, true, 0, 1, Option.none, Option.none⟩).2 =
      Action.enterLong 7 16 := by
  have h := (claim4_pullback_entry ⟨2, 5⟩
    ⟨20, 10, 4, 11, 9, 9, 5, 1, 1, [9, 8, 7, 8, 9], [11, 11, 11, 11, 11]⟩
    ⟨true, true, true, 0, 1, Option.none, Option.none⟩ (by norm_num)).1
    rfl (by norm_num) (by norm_num) (by norm_num) (by norm_num)
    (by norm_num [listMin, List.foldl, min_def])
  rw [h.1]
  norm_num [listMin, List.foldl, min_def]

/-- Inversion for the C5 block: a fired long entry carries the
lookback-window low as stop and a positive stop distance. -/
theorem coralEntry_long_inv (cfg : CoralCfg) (b : CoralBar) (s : CoralState)
    (sl tp : ℚ) (h : (coralEntry cfg b s).2 = Action.enterLong sl tp) :
    sl = listMin b.lows ∧ 0 < b.close - sl := by
  unfold coralEntry coralTail at h
  split_ifs at h
  all_goals simp_all

/-- Inversion for the C5 block: a fired short entry carries the
lookback-window high as stop and a positive stop distance. -/
theorem coralEntry_short_inv (cfg : CoralCfg) (b : CoralBar) (s : CoralState)
    (sl tp : ℚ) (h : (coralEntry cfg b s).2 = Action.enterShort sl tp) :
    sl = listMax b.highs ∧ 0 < sl - b.close := by
  unfold coralEntry coralTail at h
  split_ifs at h
  all_goals simp_all

/-- Inversion through the whole `next` call for the long entry. -/
theorem coralStep_long_inv (cfg : CoralCfg) (pos : Dir) (b : CoralBar)
    (s : CoralState) (sl tp : ℚ)
    (h : (coralStep cfg pos b s).2 = Action.enterLong sl tp) :
    sl = listMin b.lows ∧ 0 < b.close - sl := by
  by_cases hp : pos = Dir.flat
  · subst hp
    by_cases hl : b.histLen < cfg.lookback + 5
    · unfold coralStep at h
      rw [if_pos hl] at h
      simp at h
    · rw [coralStep_flat cfg b s hl] at h
      exact coralEntry_long_inv cfg b _ sl tp h
  · rcases coralStep_pos_actions cfg b s pos hp with hc | hc <;> rw [hc] at h <;>
      simp at h

/-- Inversion through the whole `next` call for the short entry. -/
theorem coralStep_short_inv (cfg : CoralCfg) (pos : Dir) (b : CoralBar)
    (s : CoralState) (sl tp : ℚ)
    (h : (coralStep cfg pos b s).2 = Action.enterShort sl tp) :
    sl = listMax b.highs ∧ 0 < sl - b.close := by
  by_cases hp : pos = Dir.flat
  · subst hp
    by_cases hl : b.histLen < cfg.lookback + 5
    · unfold coralStep at h
      rw [if_pos hl] at h
      simp at h
    · rw [coralStep_flat cfg b s hl] at h
      exact coralEntry_short_inv cfg b _ sl tp h
  · rcases coralStep_pos_actions cfg b s pos hp with hc | hc <;> rw [hc] at h <;>
      simp at h

/-- C10: every entry emitted by the EMA breakout variants and by
CoralPullback has its stop strictly on the loss side of the entry close
(below the close for a long, above it for a short); a non-positive stop
distance always skips the entry, so no entry carries one. -/
theorem claim10_stop_loss_side (cfg : LuciCfg) (pos : Dir) (b : LuciBar)
    (ccfg : CoralCfg) (cpos : Dir) (cb : CoralBar) (cs : CoralState) (sl tp : ℚ) :
    (luciLongStep cfg pos b = Action.enterLong sl tp → sl < b.close) ∧
    (luciShortStep cfg pos b = Action.enterLong sl tp → sl < b.close) ∧
    (luciShortStep cfg pos b = Action.enterShort sl tp → b.close < sl) ∧
    ((coralStep ccfg cpos cb cs).2 = Action.enterLong sl tp → sl < cb.close) ∧
    ((coralStep ccfg cpos cb cs).2 = Action.enterShort sl tp → cb.close < sl) := by
  refine ⟨fun h => ?_, fun h => ?_, fun h => ?_, fun h => ?_, fun h => ?_⟩
  · simp only [luciLongStep] at h
    split_ifs at h <;>
      (injection h with hsl htp
       rw [← hsl]
       linarith)
  · simp only [luciShortStep] at h
    split_ifs at h <;>
      (injection h with hsl htp
       rw [← hsl]
       linarith)
  · simp only [luciShortStep] at h
    split_ifs at h <;>
      (injection h with hsl htp
       rw [← hsl]
       linarith)
  · have hk := coralStep_long_inv ccfg cpos cb cs sl tp h
    linarith [hk.2]
  · have hk := coralStep_short_inv ccfg cpos cb cs sl tp h
    linarith [hk.2]

/-- Witness for C10 at a concrete firing bar of the long breakout:
the ATR stop 8 lies strictly below the entry close 10. -/
theorem claim10_witness :
    luciLongStep ⟨1, 2, true⟩ Dir.flat ⟨10, 11, 9, 1, 9, 8, 9, [9], [11]⟩ =
      Action.enterLong 8 14 ∧ (8 : ℚ) < 10 := by
  have hstep : luciLongStep ⟨1, 2, true⟩ Dir.flat ⟨10, 11, 9, 1, 9, 8, 9, [9], [11]⟩ =
      Action.enterLong 8 14 := by
    norm_num [luciLongStep]
  exact ⟨hstep, (claim10_stop_loss_side ⟨1, 2, true⟩ Dir.flat
    ⟨10, 11, 9, 1, 9, 8, 9, [9], [11]⟩ ⟨2, 5⟩ Dir.flat
    ⟨20, 10, 4, 11, 9, 9, 5, 1, 1, [9], [11]⟩ coralInit 8 14).1 hstep⟩

/-- The clamping step of the Ehlers period update always lands in [6, 100]. -/
theorem periodClamped_mem (raw prev : ℝ) :
    6 ≤ periodClamped raw prev ∧ periodClamped raw prev ≤ 100 := by
  unfold periodClamped
  exact ⟨le_max_left 6 _, max_le (by norm_num) (min_le_left _ _)⟩

/-- The stored period stays in [0, 100] whenever the previous one did. -/
theorem periodStore_mem (raw prev : ℝ) (h0 : 0 ≤ prev) (h1 : prev ≤ 100) :
    0 ≤ periodStore raw prev ∧ periodStore raw prev ≤ 100 := by
  have hc := periodClamped_mem raw prev
  unfold periodStore
  constructor <;> linarith [hc.1, hc.2]

/-- The newest pipeline entry of the history is the pipeline value. -/
theorem ehlersHist_getD_zero (p h l : ℕ → ℝ) (i : ℕ) :
    (ehlersHist p h l i).getD 0 zeroE = calcSnr p h l i := by
  cases i <;> rfl

/-- The stored dominant-cycle period always lies in [0, 100]. -/
theorem calcSnr_period_mem (p h l : ℕ → ℝ) (i : ℕ) :
    0 ≤ (calcSnr p h l i).period ∧ (calcSnr p h l i).period ≤ 100 := by
  induction i with
  | zero => norm_num [calcSnr, ehlersHist, ehlersStep, zeroE]
  | succ n ih =>
      show 0 ≤ (ehlersStep p h l (n + 1) (ehlersHist p h l n)).period ∧
        (ehlersStep p h l (n + 1) (ehlersHist p h l n)).period ≤ 100
      unfold ehlersStep
      split_ifs
      · norm_num [zeroE]
      · rw [ehlersHist_getD_zero]
        exact periodStore_mem _ _ ih.1 ih.2

/-- At bar 6 (the first loop iteration) Im is zero because the smoothed
I2/Q2 components at bar 5 are still the zero seed, so the raw estimate
holds the zero seed, the clamp lifts it to 6, and the 0.2/0.8 blend
stores 6/5 — for every input series. -/
theorem calcSnr_period_six (p h l : ℕ → ℝ) : (calcSnr p h l 6).period = 6 / 5 := by
  have h5 : ehlersHist p h l 5 = [zeroE, zeroE, zeroE, zeroE, zeroE, zeroE] := rfl
  show (ehlersStep p h l 6 (ehlersHist p h l 5)).period = 6 / 5
  rw [h5]
  norm_num [ehlersStep, List.getD, zeroE, periodRaw, periodStore, periodClamped,
    min_def, max_def]

/-- After the seed bar the blend of any clamped value with 6/5 is 54/25. -/
theorem periodStore_after_seed (raw : ℝ) : periodStore raw (6 / 5) = 54 / 25 := by
  unfold periodStore periodClamped
  rcases le_or_lt raw (1.5 * (6 / 5 : ℝ)) with hr | hr
  · rw [if_neg (not_lt.mpr hr)]
    rcases lt_or_le raw (0.67 * (6 / 5 : ℝ)) with hs | hs
    · rw [if_pos hs, min_eq_right (by norm_num), max_eq_left (by norm_num)]
      norm_num
    · rw [if_neg (not_lt.mpr hs),
        min_eq_right (le_trans hr (by norm_num)),
        max_eq_left (le_trans hr (by norm_num))]
      norm_num
  · rw [if_pos hr, if_neg (by norm_num), min_eq_right (by norm_num),
      max_eq_left (by norm_num)]
    norm_num

/-- At bar 7 the stored period is 54/25 for every input series: whatever
the raw arctan estimate is, the clamp pulls it to 6 and the blend with
the stored 6/5 gives 54/25. -/
theorem calcSnr_period_seven (p h l : ℕ → ℝ) :
    (calcSnr p h l 7).period = 54 / 25 := by
  have h6 : ((ehlersHist p h l 6).getD 0 zeroE).period = 6 / 5 := by
    rw [ehlersHist_getD_zero]
    exact calcSnr_period_six p h l
  show (ehlersStep p h l 7 (ehlersHist p h l 6)).period = 54 / 25
  unfold ehlersStep
  rw [if_neg (by norm_num)]
  dsimp only
  rw [h6]
  exact periodStore_after_seed _

/-- C6 fails as stated: at bar 7 the stored dominant-cycle period is
54/25 < 6 (the 0.2/0.8 smoothing applied after the clamp is still
absorbing the zero seed), so the stored period does not lie in [6, 100]. -/
theorem claim6_counterexample :
    (calcSnr (fun _ => 1) (fun _ => 1) (fun _ => 1) 7).period = 54 / 25 ∧
    ¬(6 ≤ (calcSnr (fun _ => 1) (fun _ => 1) (fun _ => 1) 7).period ∧
      (calcSnr (fun _ => 1) (fun _ => 1) (fun _ => 1) 7).period ≤ 100) := by
  have h7 := calcSnr_period_seven (fun _ => (1 : ℝ)) (fun _ => 1) (fun _ => 1)
  refine ⟨h7, ?_⟩
  rw [h7]
  norm_num

/-- C6 amended: the value produced by the clamping step itself always
lies in [6, 100] (and the relative clamp factors are 1.5 and 0.67, a
−33% lower bound rather than −50%); the stored period — the 0.2/0.8
blend of the clamped value with the previous stored period — lies in
[0, 100] but can fall below 6 while the blend absorbs the zero seed. -/
theorem claim6_period_bounds (p h l : ℕ → ℝ) (raw prev : ℝ) (i : ℕ) :
    (6 ≤ periodClamped raw prev ∧ periodClamped raw prev ≤ 100) ∧
    (0 ≤ (calcSnr p h l i).period ∧ (calcSnr p h l i).period ≤ 100) :=
  ⟨periodClamped_mem raw prev, calcSnr_period_mem p h l i⟩

/-- Witness for C9 at a concrete one-bar sequence. -/
theorem claim9_witness :
    coralRun ⟨3 / 2, 5⟩ Dir.flat coralInit [⟨10, 5, 4, 6, 3, 2, 2, 1, 1, [3], [6]⟩] =
      coralRun ⟨3 / 2, 5⟩ Dir.flat coralInit [⟨10, 5, 4, 6, 3, 2, 2, 1, 1, [3], [6]⟩] ∧
    bpcRun ⟨5, -5, false⟩ Dir.flat 0 [⟨2, 1, 0⟩] =
      bpcRun ⟨5, -5, false⟩ Dir.flat 0 [⟨2, 1, 0⟩] :=
  ⟨(claim9_determinism ⟨3 / 2, 5⟩ [⟨10, 5, 4, 6, 3, 2, 2, 1, 1, [3], [6]⟩]
      coralInit coralInit ⟨5, -5, false⟩ [⟨2, 1, 0⟩] 0 0 rfl rfl rfl rfl).1,
   (claim9_determinism ⟨3 / 2, 5⟩ [⟨10, 5, 4, 6, 3, 2, 2, 1, 1, [3], [6]⟩]
      coralInit coralInit ⟨5, -5, false⟩ [⟨2, 1, 0⟩] 0 0 rfl rfl rfl rfl).2.1⟩

end Crypto
